import Mathlib

/-!
Shallow embedding of the `collection-task` resource task pipeline:
the task-list building, offset/limit partitioning, redirect resolution
(`src/collection_task/filtering.py`), the retried download functions
(`src/collection_task/downloading.py`), and the task-running pipelines
(`bin/transform_resources.py`, `bin/download_transformed.py`).

Python dictionaries are embedded as association lists (`List (k × v)`);
a well-formed dictionary has pairwise-distinct keys.  Python `sorted`
on strings is embedded as insertion sort by `≤`, which computes the same
list (sorting is unique up to equal elements, and equal strings are
identical).  Machine-level effects (network transports, the external
pipeline engine, the collection loader) are oracles passed as functions;
exceptions are `Except`.
-/

namespace CollectionTask

/-- Lexicographic (code-point) comparison of character lists: the order
Python uses to compare strings. -/
def chars_le : List Char → List Char → Bool
  | [], _ => true
  | _ :: _, [] => false
  | a :: s, b :: t => if a = b then chars_le s t else decide (a < b)

/-- Python `s <= t` on strings: lexicographic by Unicode code point. -/
def str_le (s t : String) : Bool :=
  chars_le s.data t.data

/-- The propositional form of `str_le`. -/
abbrev str_le_prop (s t : String) : Prop :=
  str_le s t = true

/-- Python `sorted` on a list of strings (ascending lexicographic order). -/
def pySorted (l : List String) : List String :=
  List.insertionSort str_le_prop l

/-- Python truthiness of an optional string: `None` and `""` are falsy. -/
def isTruthy : Option String → Bool
  | none => false
  | some s => s ≠ ""

/-- A `dataset_resource_map` (Python dict mapping a dataset name to its
list of resources), embedded as an association list. -/
abbrev DatasetResourceMap := List (String × List String)

/-- Line 39 of `filtering.py` (and line 174 of `download_transformed.py`):
`[dataset] if dataset else sorted(dataset_resource_map.keys())`. -/
def datasets_to_process (m : DatasetResourceMap) (dataset : Option String) : List String :=
  if isTruthy dataset then [dataset.getD ""] else pySorted (m.map Prod.fst)

/-- `build_dataset_resource_pairs` from `filtering.py` (lines 24-48):
iterate `sorted(datasets_to_process)`; skip datasets absent from the map;
within a dataset emit `(ds, resource)` for each resource in sorted order. -/
def build_dataset_resource_pairs (m : DatasetResourceMap) (dataset : Option String) :
    List (String × String) :=
  (pySorted (datasets_to_process m dataset)).flatMap (fun ds =>
    match m.lookup ds with
    | none => []
    | some rs => (pySorted rs).map (fun r => (ds, r)))

/-- Python slice `xs[o:]` for an arbitrary (possibly negative) integer `o`. -/
def pySliceFrom (xs : List (String × String)) (o : Int) : List (String × String) :=
  if 0 ≤ o then xs.drop o.toNat else xs.drop ((xs.length : Int) + o).toNat

/-- Python slice `xs[:l]` for an arbitrary (possibly negative) integer `l`. -/
def pySliceTake (xs : List (String × String)) (l : Int) : List (String × String) :=
  if 0 ≤ l then xs.take l.toNat else xs.take ((xs.length : Int) + l).toNat

/-- The `ValueError` message raised by `apply_offset_and_limit`. -/
def offset_error_message (offset : Int) (total : Nat) : String :=
  "Offset " ++ toString offset ++
    " is beyond the total number of transformation tasks (" ++ toString total ++ ")"

/-- The extra log line emitted when the offset check fails and a dataset
filter was given (`if dataset: logger.error(...)` in `filtering.py`). -/
def dataset_note (dataset : Option String) : List String :=
  if isTruthy dataset then
    ["Note: Filtering by dataset \x27" ++ dataset.getD "" ++ "\x27"]
  else []

/-- The trailing `if limit is not None: pairs = pairs[:limit]` step. -/
def apply_limit (pairs : List (String × String)) (limit : Option Int) :
    List (String × String) :=
  match limit with
  | none => pairs
  | some l => pySliceTake pairs l

/-- `apply_offset_and_limit` from `filtering.py` (lines 51-85).  The first
component is the returned list or the raised `ValueError` message; the
second component is the list of `logger.error` lines emitted. -/
def apply_offset_and_limit (pairs : List (String × String))
    (offset limit : Option Int) (dataset : Option String) :
    Except String (List (String × String)) × List String :=
  match offset with
  | some o =>
    if (pairs.length : Int) ≤ o then
      (Except.error (offset_error_message o pairs.length),
        offset_error_message o pairs.length :: dataset_note dataset)
    else
      (Except.ok (apply_limit (pySliceFrom pairs o) limit), [])
  | none => (Except.ok (apply_limit pairs limit), [])

/-- One `old_resource` entry of the collection (a row of `old-resource.csv`). -/
structure OldResourceEntry where
  old_resource : String
  resource : String
  status : Option String
deriving DecidableEq

/-- Python `dict[k] = v`: overwrite in place if the key exists, else append. -/
def dict_insert (m : List (String × String)) (k v : String) : List (String × String) :=
  if m.any (fun p => p.1 = k) then
    m.map (fun p => if p.1 = k then (k, v) else p)
  else m ++ [(k, v)]

/-- `build_redirect_map` from `filtering.py` (lines 9-21). -/
def build_redirect_map (entries : List OldResourceEntry) : List (String × String) :=
  entries.foldl (fun m e => dict_insert m e.old_resource e.resource) []

/-- Python `redirect.get(old_resource, old_resource)`. -/
def dict_get (m : List (String × String)) (k dflt : String) : String :=
  (m.lookup k).getD dflt

end CollectionTask

namespace CollectionTask

/-- The `while retries < max_retries` download loop of `download_file`
(`downloading.py`).  `attempt i` is the transport outcome of the `i`-th
attempt: `none` for success, `some e` for a raised transport error `e`.
Per the source, a success returns `True` at once; a failure raises `e`
immediately when `raise_error` is set, else logs and retries; an exhausted
budget falls through to `return False`. -/
def download_attempt_loop (attempt : Nat → Option String) (raise_error : Bool) :
    Nat → Nat → Except String Bool
  | 0, _ => Except.ok false
  | fuel + 1, idx =>
    match attempt idx with
    | none => Except.ok true
    | some e =>
      if raise_error then Except.error e
      else download_attempt_loop attempt raise_error fuel (idx + 1)

/-- The message of the `ImportError` raised for `s3://` URLs without boto3. -/
def boto3_error_message : String :=
  "boto3 is required to download from s3:// URLs. Install it with: pip install boto3"

/-- Python `url.startswith(\x27s3://\x27)`, on the character list. -/
def starts_with_s3 (url : String) : Bool :=
  decide (url.data.take 5 = "s3://".data)

/-- Return value of `download_file` from `downloading.py` (lines 20-77).
`has_boto3` embeds the module-level `HAS_BOTO3` flag and `attempt` the
transport (boto3 or urlretrieve) outcome per attempt index. -/
def download_file (url : String) (has_boto3 : Bool) (attempt : Nat → Option String)
    (raise_error : Bool) (max_retries : Nat) : Except String Bool :=
  if starts_with_s3 url then
    if !has_boto3 then
      if raise_error then Except.error boto3_error_message else Except.ok false
    else download_attempt_loop attempt raise_error max_retries 0
  else download_attempt_loop attempt raise_error max_retries 0

/-- Python `"\n".join(lines)`. -/
def join_lines : List String → String
  | [] => ""
  | [x] => x
  | x :: y :: xs => x ++ "\n" ++ join_lines (y :: xs)

/-- The aggregate `RuntimeError` message of `download_files`. -/
def download_failure_message (failed : List String) : String :=
  "Failed to download " ++ toString failed.length ++ " file(s):\n" ++ join_lines failed

/-- `download_files` from `downloading.py` (lines 80-143), with the
per-URL outcome of `download_file` (called with `raise_error=False`, so it
returns a boolean) given by the oracle `result`.  The futures dict and the
`results` list preserve the `url_map` iteration order; after all items
complete, a non-empty `failed_downloads` list raises the aggregate
`RuntimeError`, otherwise the boolean results are returned. -/
def download_files (url_map : List (String × String)) (result : String → Bool) :
    Except String (List Bool) :=
  let results := url_map.map (fun p => result p.1)
  let failed := (url_map.map Prod.fst).filter (fun u => !result u)
  if failed.isEmpty then Except.ok results
  else Except.error (download_failure_message failed)

/-- A filesystem state: the set of existing directories and the files with
an abstract content token.  Paths are component lists. -/
structure FileSystem where
  dirs : List (List String)
  files : List (List String × Nat)
deriving DecidableEq

/-- `Path(p).mkdir(parents=True, exist_ok=True)`: `p` and every ancestor
of `p` exist afterwards; nothing else changes. -/
def mkdir_parents (fs : FileSystem) (p : List String) : FileSystem :=
  ⟨p.inits ++ fs.dirs, fs.files⟩

/-- A successful transfer attempt writes `out_path` (only). -/
def write_file (fs : FileSystem) (p : List String) (tok : Nat) : FileSystem :=
  ⟨fs.dirs, (p, tok) :: fs.files.filter (fun q => q.1 ≠ p)⟩

/-- The download loop of `download_file` with its filesystem effect:
a successful attempt writes `out_path`; a failed attempt writes nothing. -/
def download_attempt_loop_fs (attempt : Nat → Option String) (raise_error : Bool)
    (out_path : List String) :
    Nat → Nat → FileSystem → FileSystem × Except String Bool
  | 0, _, fs => (fs, Except.ok false)
  | fuel + 1, idx, fs =>
    match attempt idx with
    | none => (write_file fs out_path idx, Except.ok true)
    | some e =>
      if raise_error then (fs, Except.error e)
      else download_attempt_loop_fs attempt raise_error out_path fuel (idx + 1) fs

/-- `download_file` from `downloading.py` with its filesystem effect:
line 36 creates the parent directory chain of `output_path` before the
URL-scheme dispatch and before any transfer attempt. -/
def download_file_fs (fs : FileSystem) (url : String) (out_path : List String)
    (has_boto3 : Bool) (attempt : Nat → Option String) (raise_error : Bool)
    (max_retries : Nat) : FileSystem × Except String Bool :=
  let fs1 := mkdir_parents fs out_path.dropLast
  if starts_with_s3 url then
    if !has_boto3 then
      (fs1, if raise_error then Except.error boto3_error_message else Except.ok false)
    else download_attempt_loop_fs attempt raise_error out_path max_retries 0 fs1
  else download_attempt_loop_fs attempt raise_error out_path max_retries 0 fs1

end CollectionTask

namespace CollectionTask

/-- The per-resource metadata accessors of the collection collaborator,
passed through untouched by `process_resources`. -/
structure CollectionOracle where
  resource_path : String → String
  resource_endpoints : String → List String
  resource_organisations : String → List String
  resource_start_date : String → String

/-- One worker-task argument tuple built by `process_resources`
(lines 164-200 of `transform_resources.py`).  `redirected_from` models the
`config[\x27resource\x27]` entry added when `resource != old_resource`. -/
structure TransformTask where
  old_resource : String
  dataset : String
  resource_path : String
  endpoints : String
  organisations : String
  entry_date : String
  redirected_from : Option String
deriving DecidableEq

/-- The task-building loop of `process_resources` (lines 164-200): resolve
the redirect with `redirect.get(old_resource, old_resource)`, skip the pair
when the resolved resource is empty (falsy), else build the task tuple. -/
def build_tasks (pairs : List (String × String)) (redirect : List (String × String))
    (c : CollectionOracle) : List TransformTask :=
  pairs.filterMap (fun p =>
    let old_resource := p.2
    let resource := dict_get redirect old_resource old_resource
    if resource = "" then none
    else some
      ⟨old_resource, p.1, c.resource_path resource,
        String.intercalate " " (c.resource_endpoints old_resource),
        String.intercalate " " (c.resource_organisations old_resource),
        c.resource_start_date old_resource,
        if resource ≠ old_resource then some old_resource else none⟩)

/-- `process_single_resource` from `transform_resources.py` (lines 25-93):
run the pipeline for one task, catching any exception at the task boundary
and returning `(old_resource, success, error_message)`. -/
def process_single_resource (pipeline_run : TransformTask → Except String Unit)
    (t : TransformTask) : String × Bool × Option String :=
  match pipeline_run t with
  | Except.ok _ => (t.old_resource, true, none)
  | Except.error e => (t.old_resource, false, some e)

/-- The `(successful, failed, errors)` value returned by `process_resources`. -/
structure RunSummary where
  successful : Nat
  failed : Nat
  errors : List (String × String)
deriving DecidableEq

/-- The result-collection loop of `process_resources` (lines 250-256). -/
def collect_results (results : List (String × Bool × Option String)) : RunSummary :=
  ⟨results.countP (fun r => r.2.1),
    results.countP (fun r => !r.2.1),
    results.filterMap (fun r => if r.2.1 then none else some (r.1, r.2.2.getD ""))⟩

/-- Lines 138-155 of `transform_resources.py`: build the pair list, then
(unless `--reprocess`) keep only the pairs for which `resource_needs_processing`
holds of the on-disk fingerprint record. -/
def staleness_filtered_pairs (m : DatasetResourceMap) (dataset : Option String)
    (needs_processing : String → String → Bool) (reprocess : Bool) :
    List (String × String) :=
  let pairs0 := build_dataset_resource_pairs m dataset
  if reprocess then pairs0 else pairs0.filter (fun p => needs_processing p.1 p.2)

/-- Lines 138-162 of `transform_resources.py`: the window of
(dataset, resource) pairs selected by the offset/limit slice, taken after
the staleness filtering. -/
def selected_pairs (m : DatasetResourceMap) (dataset : Option String)
    (needs_processing : String → String → Bool) (offset limit : Option Int)
    (reprocess : Bool) : Except String (List (String × String)) :=
  (apply_offset_and_limit (staleness_filtered_pairs m dataset needs_processing reprocess)
    offset limit dataset).1

/-- `process_resources` from `transform_resources.py` (lines 96-266).
Returns the raised `ValueError` message, or `none` (the Python `return None`
taken before the worker pool is created when the task list is empty), or the
`(successful, failed, errors)` summary.  `pipeline_run` is the external
transform collaborator; the model consults it only in the non-empty branch. -/
def process_resources (m : DatasetResourceMap) (entries : List OldResourceEntry)
    (c : CollectionOracle) (pipeline_run : TransformTask → Except String Unit)
    (dataset : Option String) (needs_processing : String → String → Bool)
    (offset limit : Option Int) (reprocess : Bool) :
    Except String (Option RunSummary) :=
  let redirect := build_redirect_map entries
  match selected_pairs m dataset needs_processing offset limit reprocess with
  | Except.error e => Except.error e
  | Except.ok pairs2 =>
    let tasks := build_tasks pairs2 redirect c
    if tasks.isEmpty then Except.ok none
    else Except.ok (some (collect_results (tasks.map (process_single_resource pipeline_run))))

/-- The pair `(N, M)` of the log line
`"Processing N transformation tasks (out of M total)"` (line 202), where `M`
is `total_pairs`, taken at line 139 before staleness filtering and slicing. -/
def processing_log_counts (m : DatasetResourceMap) (entries : List OldResourceEntry)
    (c : CollectionOracle) (dataset : Option String)
    (needs_processing : String → String → Bool) (offset limit : Option Int)
    (reprocess : Bool) : Except String (Nat × Nat) :=
  match selected_pairs m dataset needs_processing offset limit reprocess with
  | Except.error e => Except.error e
  | Except.ok pairs2 =>
    Except.ok ((build_tasks pairs2 (build_redirect_map entries) c).length,
      (build_dataset_resource_pairs m dataset).length)

/-- The `ValueError` message of `download_transformed.py` line 180. -/
def dt_missing_dataset_message (dataset : Option String) : String :=
  "Dataset \x27" ++ dataset.getD "" ++ "\x27 not found in dataset_resource_map"

/-- The inline (dataset, resource) pair builder of `download_transformed.py`
(lines 172-183).  Unlike `build_dataset_resource_pairs`, a dataset absent
from the map raises a `ValueError` when a dataset filter was explicitly
requested (`if dataset: raise ValueError(...)`). -/
def download_transformed_pairs (m : DatasetResourceMap) (dataset : Option String) :
    Except String (List (String × String)) :=
  (pySorted (datasets_to_process m dataset)).foldlM (fun acc ds =>
    match m.lookup ds with
    | none =>
      if isTruthy dataset then Except.error (dt_missing_dataset_message dataset)
      else Except.ok acc
    | some rs => Except.ok (acc ++ (pySorted rs).map (fun r => (ds, r)))) []

/-- Specification-side description of the task list (`spec.md` sections 3
and 4.1): the (dataset, resource) membership pairs of the collection index
admitted by the optional dataset filter, one pair per membership. -/
def membership_pairs (m : DatasetResourceMap) (dataset : Option String) :
    List (String × String) :=
  m.flatMap (fun e =>
    match dataset with
    | none => e.2.map (fun r => (e.1, r))
    | some d => if e.1 = d then e.2.map (fun r => (e.1, r)) else [])

/-- The deterministic total order on tasks fixed by `spec.md` section 3:
primary key dataset name (strictly), secondary key resource identifier,
both lexicographic. -/
def pair_le (p q : String × String) : Prop :=
  (str_le p.1 q.1 = true ∧ p.1 ≠ q.1) ∨ (p.1 = q.1 ∧ str_le p.2 q.2 = true)

/-- A well-formed embedded Python dict: pairwise-distinct keys. -/
abbrev WFMap (m : DatasetResourceMap) : Prop :=
  (m.map Prod.fst).Nodup

/-- A contiguous partition scheme: slice the task list at
`(offset₀ = offset, limit₀)`, `(offset₁ = offset₀ + limit₀, limit₁)`, …
through `apply_offset_and_limit`, concatenating the slices (and propagating
any raised `ValueError`). -/
def concat_slices (pairs : List (String × String)) (dataset : Option String) :
    Nat → List Nat → Except String (List (String × String))
  | _, [] => Except.ok []
  | offset, l :: ls =>
    match (apply_offset_and_limit pairs (some (offset : Int)) (some (l : Int)) dataset).1 with
    | Except.error e => Except.error e
    | Except.ok s =>
      match concat_slices pairs dataset (offset + l) ls with
      | Except.error e => Except.error e
      | Except.ok rest => Except.ok (s ++ rest)

end CollectionTask

namespace CollectionTask

theorem pySliceFrom_natCast (xs : List (String × String)) (o : Nat) :
    pySliceFrom xs (o : Int) = xs.drop o := by
  simp [pySliceFrom]

theorem pySliceTake_natCast (xs : List (String × String)) (l : Nat) :
    pySliceTake xs (l : Int) = xs.take l := by
  simp [pySliceTake]

theorem concat_slices_eq (pairs : List (String × String)) (dataset : Option String) :
    ∀ (limits : List Nat) (offset : Nat), (∀ l ∈ limits, 0 < l) →
      offset + limits.sum = pairs.length →
      concat_slices pairs dataset offset limits = Except.ok (pairs.drop offset) := by
  intro limits
  induction limits with
  | nil =>
    intro offset _ hsum
    simp only [List.sum_nil, Nat.add_zero] at hsum
    simp [concat_slices, hsum]
  | cons l ls ih =>
    intro offset hpos hsum
    have hl : 0 < l := hpos l (List.mem_cons_self _ _)
    have hofs : offset < pairs.length := by
      simp only [List.sum_cons] at hsum
      omega
    have hcheck : ¬ ((pairs.length : Int) ≤ (offset : Int)) := by
      exact_mod_cast Nat.not_le.mpr hofs
    have hrest : concat_slices pairs dataset (offset + l) ls =
        Except.ok (pairs.drop (offset + l)) := by
      refine ih (offset + l) (fun x hx => hpos x (List.mem_cons_of_mem _ hx)) ?_
      simp only [List.sum_cons] at hsum
      omega
    simp only [concat_slices, apply_offset_and_limit, hcheck, if_false,
      pySliceFrom_natCast, apply_limit, pySliceTake_natCast, hrest]
    rw [← List.drop_drop, List.take_append_drop]

/-- C3: with both offset and limit omitted, `apply_offset_and_limit` returns
its input unchanged; and every contiguous partition scheme with positive
limits covering the list length reproduces, slice by slice, exactly the
original list when concatenated in order (no element duplicated or missing). -/
theorem apply_offset_and_limit_identity_and_partition
    (pairs : List (String × String)) (dataset : Option String) :
    (apply_offset_and_limit pairs none none dataset).1 = Except.ok pairs ∧
    ∀ limits : List Nat, (∀ l ∈ limits, 0 < l) → limits.sum = pairs.length →
      concat_slices pairs dataset 0 limits = Except.ok pairs := by
  constructor
  · rfl
  · intro limits hpos hsum
    have h := concat_slices_eq pairs dataset limits 0 hpos (by omega)
    simpa using h

/-- Witness for C3 on a concrete three-task list partitioned as `[1, 2]`. -/
theorem apply_offset_and_limit_identity_and_partition_witness :
    concat_slices [("ds-a", "r1"), ("ds-a", "r2"), ("ds-a", "r3")] none 0 [1, 2] =
      Except.ok [("ds-a", "r1"), ("ds-a", "r2"), ("ds-a", "r3")] :=
  (apply_offset_and_limit_identity_and_partition
    [("ds-a", "r1"), ("ds-a", "r2"), ("ds-a", "r3")] none).2 [1, 2]
    (by decide) (by decide)

/-- C4: a supplied offset with `offset ≥ len(tasks)` (including equality)
makes `apply_offset_and_limit` raise the `ValueError` — never a clamped or
empty result — whose message carries the total task count, and the dataset
context is echoed in the error log when a (truthy) dataset was given; while
`offset = len(tasks) - 1` with no limit returns exactly one item. -/
theorem apply_offset_and_limit_range_error
    (pairs : List (String × String)) (offset : Int) (limit : Option Int)
    (dataset : Option String) :
    ((pairs.length : Int) ≤ offset →
      (apply_offset_and_limit pairs (some offset) limit dataset).1 =
        Except.error (offset_error_message offset pairs.length) ∧
      (∃ a b, offset_error_message offset pairs.length =
        a ++ toString pairs.length ++ b) ∧
      (isTruthy dataset = true →
        ("Note: Filtering by dataset \x27" ++ dataset.getD "" ++ "\x27") ∈
          (apply_offset_and_limit pairs (some offset) limit dataset).2)) ∧
    (0 < pairs.length →
      (apply_offset_and_limit pairs (some ((pairs.length : Int) - 1)) none dataset).1 =
        Except.ok (pairs.drop (pairs.length - 1)) ∧
      (pairs.drop (pairs.length - 1)).length = 1) := by
  constructor
  · intro hge
    refine ⟨?_, ?_, ?_⟩
    · simp [apply_offset_and_limit, hge]
    · exact ⟨"Offset " ++ toString offset ++
        " is beyond the total number of transformation tasks (", ")",
        by simp [offset_error_message, String.append_assoc]⟩
    · intro htruthy
      simp [apply_offset_and_limit, hge, dataset_note, htruthy]
  · intro hpos
    have hcheck : ¬ ((pairs.length : Int) ≤ (pairs.length : Int) - 1) := by omega
    have hdrop : pySliceFrom pairs ((pairs.length : Int) - 1) =
        pairs.drop (pairs.length - 1) := by
      have h0 : (0 : Int) ≤ (pairs.length : Int) - 1 := by omega
      have htn : ((pairs.length : Int) - 1).toNat = pairs.length - 1 := by omega
      simp [pySliceFrom, h0, htn]
    refine ⟨?_, ?_⟩
    · simp [apply_offset_and_limit, hcheck, apply_limit, hdrop]
    · rw [List.length_drop]
      omega

/-- Witness for C4: offset 5 on a two-task list raises with the count and
the dataset note; offset 1 on the same list returns exactly one item. -/
theorem apply_offset_and_limit_range_error_witness :
    (apply_offset_and_limit [("ds-a", "res-1"), ("ds-a", "res-2")] (some 5) none
        (some "my-dataset")).1 =
      Except.error (offset_error_message 5 2) ∧
    ("Note: Filtering by dataset \x27my-dataset\x27" ∈
      (apply_offset_and_limit [("ds-a", "res-1"), ("ds-a", "res-2")] (some 5) none
        (some "my-dataset")).2) ∧
    (apply_offset_and_limit [("ds-a", "res-1"), ("ds-a", "res-2")] (some 1) none
        (some "my-dataset")).1 = Except.ok [("ds-a", "res-2")] :=
  ⟨((apply_offset_and_limit_range_error [("ds-a", "res-1"), ("ds-a", "res-2")] 5 none
      (some "my-dataset")).1 (by decide)).1,
   ((apply_offset_and_limit_range_error [("ds-a", "res-1"), ("ds-a", "res-2")] 5 none
      (some "my-dataset")).1 (by decide)).2.2 (by decide),
   by
    have h := ((apply_offset_and_limit_range_error [("ds-a", "res-1"), ("ds-a", "res-2")]
      5 none (some "my-dataset")).2 (by decide)).1
    simpa using h⟩

theorem mem_join_lines : ∀ (l : List String), ∀ u ∈ l, ∃ a b, join_lines l = a ++ u ++ b := by
  intro l
  induction l with
  | nil => intro u hu; simp at hu
  | cons x xs ih =>
    intro u hu
    cases xs with
    | nil =>
      have hx : u = x := by simpa using hu
      exact ⟨"", "", by simp [join_lines, hx]⟩
    | cons y ys =>
      rcases List.mem_cons.mp hu with hx | hmem
      · exact ⟨"", "\n" ++ join_lines (y :: ys), by simp [join_lines, hx, String.append_assoc]⟩
      · obtain ⟨a, b, hab⟩ := ih u hmem
        exact ⟨x ++ "\n" ++ a, b, by simp [join_lines, hab, String.append_assoc]⟩

/-- C6: `download_files` decides its outcome only after every entry of the
URL map has an outcome: it returns normally iff every download succeeded,
in which case its value has one boolean per input entry, position-stable
with respect to the map's iteration order; otherwise it raises the
aggregate `RuntimeError` whose message contains every failed URL. -/
theorem download_files_aggregate_spec (url_map : List (String × String))
    (result : String → Bool) :
    ((∃ rs, download_files url_map result = Except.ok rs) ↔
      ∀ u ∈ url_map.map Prod.fst, result u = true) ∧
    (∀ rs, download_files url_map result = Except.ok rs →
      rs = url_map.map (fun p => result p.1) ∧ rs.length = url_map.length) ∧
    (∀ u ∈ url_map.map Prod.fst, result u = false →
      ∃ a b, download_files url_map result = Except.error (a ++ u ++ b)) := by
  refine ⟨⟨?_, ?_⟩, ?_, ?_⟩
  · rintro ⟨rs, hrs⟩ u hu
    by_contra hfail
    have hfail' : (!result u) = true := by
      simp only [Bool.not_eq_true'] at *
      exact Bool.eq_false_iff.mpr hfail
    have hmem : u ∈ (url_map.map Prod.fst).filter (fun u => !result u) :=
      List.mem_filter.mpr ⟨hu, hfail'⟩
    have hne : (url_map.map Prod.fst).filter (fun u => !result u) ≠ [] :=
      List.ne_nil_of_mem hmem
    have : ((url_map.map Prod.fst).filter (fun u => !result u)).isEmpty = false := by
      simpa [List.isEmpty_iff] using hne
    simp [download_files, this] at hrs
  · intro hall
    have hempty : ((url_map.map Prod.fst).filter (fun u => !result u)).isEmpty = true := by
      simp only [List.isEmpty_eq_true, List.filter_eq_nil_iff]
      intro u hu
      simp [hall u hu]
    exact ⟨url_map.map (fun p => result p.1), by simp [download_files, hempty]⟩
  · intro rs hrs
    rcases h : ((url_map.map Prod.fst).filter (fun u => !result u)).isEmpty with _ | _
    · simp [download_files, h] at hrs
    · simp only [download_files, h, if_true] at hrs
      have hval : rs = url_map.map (fun p => result p.1) := (Except.ok.inj hrs).symm
      subst hval
      simp
  · intro u hu hfail
    have hfail' : (!result u) = true := by simp [hfail]
    have hmem : u ∈ (url_map.map Prod.fst).filter (fun u => !result u) :=
      List.mem_filter.mpr ⟨hu, hfail'⟩
    have hne : ((url_map.map Prod.fst).filter (fun u => !result u)).isEmpty = false := by
      simpa [List.isEmpty_iff] using List.ne_nil_of_mem hmem
    obtain ⟨a, b, hab⟩ :=
      mem_join_lines ((url_map.map Prod.fst).filter (fun u => !result u)) u hmem
    refine ⟨"Failed to download " ++
      toString ((url_map.map Prod.fst).filter (fun u => !result u)).length ++
      " file(s):\n" ++ a, b, ?_⟩
    simp [download_files, hne, download_failure_message, hab, String.append_assoc]

/-- Witness for C6: one failing URL among two produces the aggregate error
naming it; two succeeding URLs return both booleans. -/
theorem download_files_aggregate_spec_witness :
    (∃ a b, download_files [("u1", "p1"), ("u2", "p2")] (fun u => u = "u1") =
      Except.error (a ++ "u2" ++ b)) ∧
    (∃ rs, download_files [("u1", "p1"), ("u2", "p2")] (fun _ => true) = Except.ok rs) :=
  ⟨(download_files_aggregate_spec [("u1", "p1"), ("u2", "p2")] (fun u => u = "u1")).2.2
      "u2" (by decide) (by decide),
   (download_files_aggregate_spec [("u1", "p1"), ("u2", "p2")] (fun _ => true)).1.mpr
      (by decide)⟩

theorem download_attempt_loop_ok_true (attempt : Nat → Option String) :
    ∀ (fuel idx k : Nat), k < fuel → attempt (idx + k) = none →
      (∀ j < k, attempt (idx + j) ≠ none) →
      download_attempt_loop attempt false fuel idx = Except.ok true := by
  intro fuel
  induction fuel with
  | zero => intro idx k hk; omega
  | succ f ih =>
    intro idx k hk hsucc hprev
    cases k with
    | zero =>
      simp only [Nat.add_zero] at hsucc
      simp [download_attempt_loop, hsucc]
    | succ k' =>
      have h0 : attempt idx ≠ none := by
        have := hprev 0 (Nat.succ_pos _)
        simpa using this
      rcases he : attempt idx with _ | e
      · exact absurd he h0
      · have hstep : download_attempt_loop attempt false (f + 1) idx =
            download_attempt_loop attempt false f (idx + 1) := by
          simp [download_attempt_loop, he]
        rw [hstep]
        refine ih (idx + 1) k' (by omega) ?_ ?_
        · have : idx + 1 + k' = idx + (k' + 1) := by omega
          rw [this]; exact hsucc
        · intro j hj
          have : idx + 1 + j = idx + (j + 1) := by omega
          rw [this]; exact hprev (j + 1) (by omega)

theorem download_attempt_loop_ok_false (attempt : Nat → Option String) :
    ∀ (fuel idx : Nat), (∀ j < fuel, attempt (idx + j) ≠ none) →
      download_attempt_loop attempt false fuel idx = Except.ok false := by
  intro fuel
  induction fuel with
  | zero => intro idx _; rfl
  | succ f ih =>
    intro idx hall
    have h0 : attempt idx ≠ none := by
      have := hall 0 (Nat.succ_pos _)
      simpa using this
    rcases he : attempt idx with _ | e
    · exact absurd he h0
    · have hstep : download_attempt_loop attempt false (f + 1) idx =
          download_attempt_loop attempt false f (idx + 1) := by
        simp [download_attempt_loop, he]
      rw [hstep]
      refine ih (idx + 1) ?_
      intro j hj
      have : idx + 1 + j = idx + (j + 1) := by omega
      rw [this]; exact hall (j + 1) (by omega)

/-- Counterexample to C7: a transport failing at every attempt with a
distinct error per attempt (`e0`, `e1`, …), `max_retries = 5` and
`raise_error` set makes `download_file` propagate the FIRST error `e0`
immediately — not the last error `e4` after exhausting the retry budget
as the claim states. -/
theorem download_file_raise_error_counterexample :
    download_file "https://example.com/f" true
        (fun n => some ("e" ++ toString n)) true 5 = Except.error "e0" ∧
      ("e0" : String) ≠ "e4" := by
  constructor
  · rfl
  · decide

/-- C7 (amended): with `raise_error` false, `download_file` returns true as
soon as an attempt succeeds within the budget of `max_retries` attempts, and
returns false (without raising) when all `max_retries` attempts fail; with
`raise_error` set, the FIRST transport error propagates immediately, with no
further retries. -/
theorem download_file_retry_spec (url : String) (has_boto3 : Bool)
    (attempt : Nat → Option String) (max_retries : Nat)
    (hurl : starts_with_s3 url = false) :
    (∀ k < max_retries, attempt k = none → (∀ j < k, attempt j ≠ none) →
      download_file url has_boto3 attempt false max_retries = Except.ok true) ∧
    ((∀ j < max_retries, attempt j ≠ none) →
      download_file url has_boto3 attempt false max_retries = Except.ok false) ∧
    (0 < max_retries → ∀ e, attempt 0 = some e →
      download_file url has_boto3 attempt true max_retries = Except.error e) := by
  refine ⟨?_, ?_, ?_⟩
  · intro k hk hsucc hprev
    simp only [download_file, hurl, Bool.false_eq_true, if_false]
    exact download_attempt_loop_ok_true attempt max_retries 0 k hk
      (by simpa using hsucc) (by simpa using hprev)
  · intro hall
    simp only [download_file, hurl, Bool.false_eq_true, if_false]
    exact download_attempt_loop_ok_false attempt max_retries 0 (by simpa using hall)
  · intro hpos e he
    simp only [download_file, hurl, Bool.false_eq_true, if_false]
    obtain ⟨f, hf⟩ : ∃ f, max_retries = f + 1 := ⟨max_retries - 1, by omega⟩
    subst hf
    simp [download_attempt_loop, he]

/-- Witness for C7 (amended): success on the third of five attempts returns
true; five failing attempts return false; with `raise_error` the first error
propagates. -/
theorem download_file_retry_spec_witness :
    download_file "https://example.com/f" true
        (fun n => if n < 2 then some "E" else none) false 5 = Except.ok true ∧
    download_file "https://example.com/f" true (fun _ => some "E") false 5 =
      Except.ok false ∧
    download_file "https://example.com/f" true (fun _ => some "E") true 5 =
      Except.error "E" :=
  ⟨(download_file_retry_spec "https://example.com/f" true
      (fun n => if n < 2 then some "E" else none) 5 (by decide)).1 2 (by decide)
      (by decide) (by decide),
   (download_file_retry_spec "https://example.com/f" true (fun _ => some "E") 5
      (by decide)).2.1 (by decide),
   (download_file_retry_spec "https://example.com/f" true (fun _ => some "E") 5
      (by decide)).2.2 (by decide) "E" rfl⟩

theorem mem_inits_self {α : Type} : ∀ (l : List α), l ∈ l.inits := by
  intro l
  induction l with
  | nil => simp
  | cons x xs ih =>
    simp only [List.inits, List.mem_cons, List.mem_map]
    exact Or.inr ⟨xs, ih, rfl⟩

theorem download_attempt_loop_fs_frame (attempt : Nat → Option String)
    (raise_error : Bool) (out_path : List String) :
    ∀ (fuel idx : Nat) (fs : FileSystem),
      (download_attempt_loop_fs attempt raise_error out_path fuel idx fs).1.dirs =
        fs.dirs ∧
      (∀ f ∈ (download_attempt_loop_fs attempt raise_error out_path fuel idx fs).1.files,
        f ∈ fs.files ∨ f.1 = out_path) ∧
      (∀ f ∈ fs.files, f.1 ≠ out_path →
        f ∈ (download_attempt_loop_fs attempt raise_error out_path fuel idx fs).1.files) := by
  intro fuel
  induction fuel with
  | zero => intro idx fs; exact ⟨rfl, fun f hf => Or.inl hf, fun f hf _ => hf⟩
  | succ n ih =>
    intro idx fs
    rcases he : attempt idx with _ | e
    · refine ⟨?_, ?_, ?_⟩
      · simp [download_attempt_loop_fs, he, write_file]
      · intro f hf
        simp only [download_attempt_loop_fs, he, write_file] at hf
        rcases List.mem_cons.mp hf with hf1 | hf2
        · right; rw [hf1]
        · exact Or.inl (List.mem_filter.mp hf2).1
      · intro f hf hne
        simp only [download_attempt_loop_fs, he, write_file]
        exact List.mem_cons_of_mem _ (List.mem_filter.mpr ⟨hf, by simpa using hne⟩)
    · rcases raise_error with _ | _
      · simp only [download_attempt_loop_fs, he, Bool.false_eq_true, if_false]
        exact ih (idx + 1) fs
      · exact ⟨by simp [download_attempt_loop_fs, he],
          fun f hf => Or.inl (by simpa [download_attempt_loop_fs, he] using hf),
          fun f hf _ => by simpa [download_attempt_loop_fs, he] using hf⟩

/-- C10: `download_file` creates the parent directory chain of the output
path before any transfer attempt, so after every run — succeeding, failing
with all retries exhausted, raising, or an `s3://` URL without boto3 — the
parent directory and all its ancestors exist; pre-existing directories are
preserved, any new directory lies on the parent chain, any changed file is
the output path itself, and files at other paths are untouched. -/
theorem download_file_fs_frame (fs : FileSystem) (url : String)
    (out_path : List String) (has_boto3 : Bool) (attempt : Nat → Option String)
    (raise_error : Bool) (max_retries : Nat) :
    (∀ p ∈ out_path.dropLast.inits,
      p ∈ (download_file_fs fs url out_path has_boto3 attempt raise_error
        max_retries).1.dirs) ∧
    out_path.dropLast ∈ (download_file_fs fs url out_path has_boto3 attempt raise_error
      max_retries).1.dirs ∧
    (∀ d ∈ fs.dirs, d ∈ (download_file_fs fs url out_path has_boto3 attempt raise_error
      max_retries).1.dirs) ∧
    (∀ d ∈ (download_file_fs fs url out_path has_boto3 attempt raise_error
      max_retries).1.dirs, d ∈ fs.dirs ∨ d ∈ out_path.dropLast.inits) ∧
    (∀ f ∈ (download_file_fs fs url out_path has_boto3 attempt raise_error
      max_retries).1.files, f ∈ fs.files ∨ f.1 = out_path) ∧
    (∀ f ∈ fs.files, f.1 ≠ out_path →
      f ∈ (download_file_fs fs url out_path has_boto3 attempt raise_error
        max_retries).1.files) := by
  have hbase : ∀ gs : FileSystem × Except String Bool,
      (gs.1.dirs = (mkdir_parents fs out_path.dropLast).dirs ∧
        (∀ f ∈ gs.1.files, f ∈ fs.files ∨ f.1 = out_path) ∧
        (∀ f ∈ fs.files, f.1 ≠ out_path → f ∈ gs.1.files)) →
      (∀ p ∈ out_path.dropLast.inits, p ∈ gs.1.dirs) ∧
      out_path.dropLast ∈ gs.1.dirs ∧
      (∀ d ∈ fs.dirs, d ∈ gs.1.dirs) ∧
      (∀ d ∈ gs.1.dirs, d ∈ fs.dirs ∨ d ∈ out_path.dropLast.inits) ∧
      (∀ f ∈ gs.1.files, f ∈ fs.files ∨ f.1 = out_path) ∧
      (∀ f ∈ fs.files, f.1 ≠ out_path → f ∈ gs.1.files) := by
    rintro gs ⟨hdirs, hfl, hfr⟩
    refine ⟨?_, ?_, ?_, ?_, hfl, hfr⟩
    · intro p hp
      rw [hdirs]
      exact List.mem_append.mpr (Or.inl hp)
    · rw [hdirs]
      exact List.mem_append.mpr (Or.inl (mem_inits_self _))
    · intro d hd
      rw [hdirs]
      exact List.mem_append.mpr (Or.inr hd)
    · intro d hd
      rw [hdirs] at hd
      exact (List.mem_append.mp hd).symm.imp_left id
  simp only [download_file_fs]
  rcases hs3 : starts_with_s3 url with _ | _
  · simp only [Bool.false_eq_true, if_false]
    refine hbase _ ?_
    obtain ⟨h1, h2, h3⟩ := download_attempt_loop_fs_frame attempt raise_error out_path
      max_retries 0 (mkdir_parents fs out_path.dropLast)
    exact ⟨h1, fun f hf => h2 f hf, fun f hf hne => h3 f hf hne⟩
  · simp only [if_true]
    rcases has_boto3 with _ | _
    · simp only [Bool.not_false, Bool.false_eq_true, if_false, if_true]
      exact hbase (mkdir_parents fs out_path.dropLast,
          if raise_error then Except.error boto3_error_message else Except.ok false)
        ⟨rfl, fun f hf => Or.inl hf, fun f hf _ => hf⟩
    · simp only [Bool.not_true, Bool.false_eq_true, if_false]
      refine hbase _ ?_
      obtain ⟨h1, h2, h3⟩ := download_attempt_loop_fs_frame attempt raise_error out_path
        max_retries 0 (mkdir_parents fs out_path.dropLast)
      exact ⟨h1, fun f hf => h2 f hf, fun f hf hne => h3 f hf hne⟩

/-- Witness for C10: after a run in which every attempt fails (result
false), the parent directory of the output path exists and an unrelated
pre-existing file survives. -/
theorem download_file_fs_frame_witness :
    (["data", "ds-a"] ∈ (download_file_fs ⟨[], [(["other"], 7)]⟩ "https://u"
      ["data", "ds-a", "f.csv"] true (fun _ => some "E") false 3).1.dirs) ∧
    ((["other"], 7) ∈ (download_file_fs ⟨[], [(["other"], 7)]⟩ "https://u"
      ["data", "ds-a", "f.csv"] true (fun _ => some "E") false 3).1.files) :=
  ⟨(download_file_fs_frame ⟨[], [(["other"], 7)]⟩ "https://u"
      ["data", "ds-a", "f.csv"] true (fun _ => some "E") false 3).2.1,
   (download_file_fs_frame ⟨[], [(["other"], 7)]⟩ "https://u"
      ["data", "ds-a", "f.csv"] true (fun _ => some "E") false 3).2.2.2.2.2
      (["other"], 7) (by decide) (by decide)⟩

theorem lookup_eq_none_iff {β : Type} (m : List (String × β)) (k : String) :
    m.lookup k = none ↔ k ∉ m.map Prod.fst := by
  induction m with
  | nil => simp [List.lookup]
  | cons e es ih =>
    rcases e with ⟨a, b⟩
    by_cases hka : k = a
    · subst hka
      simp [List.lookup]
    · have hbeq : (k == a) = false := beq_eq_false_iff_ne.mpr hka
      simp only [List.lookup, hbeq, List.map_cons, List.mem_cons]
      rw [ih]
      constructor
      · intro h hmem
        exact h (hmem.resolve_left hka)
      · intro h hmem
        exact h (Or.inr hmem)

theorem isTruthy_of_ne (ds : String) (h : ds ≠ "") : isTruthy (some ds) = true := by
  simp [isTruthy, h]

/-- Counterexample to C2: with `reprocess` off (the default), the staleness
filter runs BEFORE the offset/limit slice, so the window selected by
`offset=1` over the index `{"a": ["r1", "r2"]}` differs between a run with
no fingerprint records (both pairs stale: window `[("a","r2")]`) and a run
whose fingerprint record makes `("a","r1")` up-to-date (only one pair left:
offset 1 raises the range `ValueError`). -/
theorem selected_pairs_staleness_counterexample :
    selected_pairs [("a", ["r1", "r2"])] none (fun _ _ => true) (some 1) none false =
      Except.ok [("a", "r2")] ∧
    selected_pairs [("a", ["r1", "r2"])] none (fun _ r => r ≠ "r1") (some 1) none false =
      Except.error (offset_error_message 1 1) := by
  constructor
  · rfl
  · rfl

/-- C2 (amended): `process_resources` takes the offset/limit window after
staleness filtering, so the window is identical across runs exactly when the
staleness filter admits the same pairs: with `reprocess=True` the window is
independent of the on-disk fingerprint records, and for a fixed fingerprint
state, contiguous shards with positive limits covering the filtered list's
length partition the staleness-filtered task list exactly once. -/
theorem selected_pairs_partition_spec (m : DatasetResourceMap) (dataset : Option String)
    (offset limit : Option Int) :
    (∀ needs needs' : String → String → Bool,
      selected_pairs m dataset needs offset limit true =
        selected_pairs m dataset needs' offset limit true) ∧
    (∀ (needs : String → String → Bool) (limits : List Nat),
      (∀ l ∈ limits, 0 < l) →
      limits.sum = (staleness_filtered_pairs m dataset needs false).length →
      concat_slices (staleness_filtered_pairs m dataset needs false) dataset 0 limits =
        Except.ok (staleness_filtered_pairs m dataset needs false)) := by
  constructor
  · intro needs needs'
    rfl
  · intro needs limits hpos hsum
    have h := concat_slices_eq (staleness_filtered_pairs m dataset needs false) dataset
      limits 0 hpos (by omega)
    simpa using h

/-- Witness for C2 (amended): two different fingerprint oracles select the
same window under `reprocess=True`, and the singleton partition scheme
reproduces the staleness-filtered list. -/
theorem selected_pairs_partition_spec_witness :
    selected_pairs [("a", ["r1", "r2"])] none (fun _ _ => true) (some 1) none true =
      selected_pairs [("a", ["r1", "r2"])] none (fun _ r => r ≠ "r1") (some 1) none true ∧
    concat_slices (staleness_filtered_pairs [("a", ["r1", "r2"])] none
        (fun _ r => r ≠ "r1") false) none 0 [1] =
      Except.ok (staleness_filtered_pairs [("a", ["r1", "r2"])] none
        (fun _ r => r ≠ "r1") false) :=
  ⟨(selected_pairs_partition_spec [("a", ["r1", "r2"])] none (some 1) none).1
      (fun _ _ => true) (fun _ r => r ≠ "r1"),
   (selected_pairs_partition_spec [("a", ["r1", "r2"])] none (some 1) none).2
      (fun _ r => r ≠ "r1") [1] (by decide) (by decide)⟩

/-- Counterexample to C9: for the requested dataset `"missing"`, absent from
the index, the inline task-list builder of `download_transformed.py` raises
a `ValueError` instead of returning an empty list. -/
theorem download_transformed_missing_dataset_counterexample :
    download_transformed_pairs [("dataset-a", ["r1"])] (some "missing") =
      Except.error "Dataset \x27missing\x27 not found in dataset_resource_map" := by
  rfl

/-- C9 (amended): for every collection index and every NON-EMPTY dataset
name absent from it, `build_dataset_resource_pairs` returns an empty list
without error, but the inline builder in `download_transformed.py` raises
the `ValueError` naming the dataset.  (An empty-string dataset filter is
falsy in Python and disables filtering instead.) -/
theorem build_pairs_missing_dataset (m : DatasetResourceMap) (ds : String)
    (h1 : ds ≠ "") (h2 : ds ∉ m.map Prod.fst) :
    build_dataset_resource_pairs m (some ds) = [] ∧
    download_transformed_pairs m (some ds) =
      Except.error (dt_missing_dataset_message (some ds)) := by
  have htruthy : isTruthy (some ds) = true := isTruthy_of_ne ds h1
  have hds : datasets_to_process m (some ds) = [ds] := by
    simp [datasets_to_process, htruthy]
  have hsort : pySorted [ds] = [ds] := rfl
  have hlook : m.lookup ds = none := (lookup_eq_none_iff m ds).mpr h2
  constructor
  · simp [build_dataset_resource_pairs, hds, hsort, hlook]
  · simp [download_transformed_pairs, hds, hsort, hlook, htruthy, List.foldlM]

/-- Witness for C9 (amended) at the index `{"dataset-a": ["r1"]}` and the
absent dataset `"dataset-b"`. -/
theorem build_pairs_missing_dataset_witness :
    build_dataset_resource_pairs [("dataset-a", ["r1"])] (some "dataset-b") = [] ∧
    download_transformed_pairs [("dataset-a", ["r1"])] (some "dataset-b") =
      Except.error (dt_missing_dataset_message (some "dataset-b")) :=
  build_pairs_missing_dataset [("dataset-a", ["r1"])] "dataset-b" (by decide) (by decide)

theorem dict_insert_keys (m : List (String × String)) (ko v k : String)
    (h : k ∈ (dict_insert m ko v).map Prod.fst) :
    k = ko ∨ k ∈ m.map Prod.fst := by
  by_cases hany : m.any (fun p => p.1 = ko)
  · simp only [dict_insert, if_pos hany, List.map_map, List.mem_map] at h
    obtain ⟨p, hp, hpk⟩ := h
    by_cases hpo : p.1 = ko
    · simp only [Function.comp, if_pos hpo] at hpk
      exact Or.inl hpk.symm
    · simp only [Function.comp, if_neg hpo] at hpk
      exact Or.inr (hpk ▸ List.mem_map_of_mem Prod.fst hp)
  · simp only [dict_insert, if_neg hany, List.map_append, List.mem_append] at h
    rcases h with h | h
    · exact Or.inr h
    · simp at h
      exact Or.inl h

theorem build_redirect_map_keys (entries : List OldResourceEntry) :
    ∀ k ∈ (build_redirect_map entries).map Prod.fst,
      ∃ e ∈ entries, e.old_resource = k := by
  have hgen : ∀ (es : List OldResourceEntry) (acc : List (String × String)),
      ∀ k ∈ ((es.foldl (fun m e => dict_insert m e.old_resource e.resource) acc).map
        Prod.fst), k ∈ acc.map Prod.fst ∨ ∃ e ∈ es, e.old_resource = k := by
    intro es
    induction es with
    | nil => intro acc k hk; exact Or.inl hk
    | cons e es ih =>
      intro acc k hk
      simp only [List.foldl_cons] at hk
      rcases ih (dict_insert acc e.old_resource e.resource) k hk with hacc | ⟨e', he', hk'⟩
      · rcases dict_insert_keys acc e.old_resource e.resource k hacc with h | h
        · exact Or.inr ⟨e, List.mem_cons_self _ _, h.symm⟩
        · exact Or.inl h
      · exact Or.inr ⟨e', List.mem_cons_of_mem _ he', hk'⟩
  intro k hk
  rcases hgen entries [] k hk with h | h
  · simp at h
  · exact h

theorem apply_limit_length_le (pairs : List (String × String)) (limit : Option Int) :
    (apply_limit pairs limit).length ≤ pairs.length := by
  rcases limit with _ | l
  · exact Nat.le_refl _
  · simp only [apply_limit, pySliceTake]
    split <;> simp [List.length_take]

theorem apply_offset_and_limit_ok_length (pairs out : List (String × String))
    (offset limit : Option Int) (dataset : Option String)
    (h : (apply_offset_and_limit pairs offset limit dataset).1 = Except.ok out) :
    out.length ≤ pairs.length := by
  rcases offset with _ | o
  · simp only [apply_offset_and_limit] at h
    obtain rfl := Except.ok.inj h
    exact apply_limit_length_le pairs limit
  · simp only [apply_offset_and_limit] at h
    by_cases hc : (pairs.length : Int) ≤ o
    · simp [hc] at h
    · simp only [if_neg hc] at h
      obtain rfl := Except.ok.inj h
      refine Nat.le_trans (apply_limit_length_le _ limit) ?_
      simp only [pySliceFrom]
      split <;> simp [List.length_drop]

theorem staleness_filtered_length_le (m : DatasetResourceMap) (dataset : Option String)
    (needs_processing : String → String → Bool) (reprocess : Bool) :
    (staleness_filtered_pairs m dataset needs_processing reprocess).length ≤
      (build_dataset_resource_pairs m dataset).length := by
  simp only [staleness_filtered_pairs]
  split
  · exact Nat.le_refl _
  · exact List.length_filter_le _ _

theorem length_filterMap_lt_of_none {α β : Type} (f : α → Option β) :
    ∀ (l : List α) (a : α), a ∈ l → f a = none → (l.filterMap f).length < l.length := by
  intro l
  induction l with
  | nil => intro a ha; simp at ha
  | cons x xs ih =>
    intro a ha hfa
    rcases List.mem_cons.mp ha with rfl | hmem
    · rw [List.filterMap_cons, hfa]
      exact Nat.lt_succ_of_le (List.length_filterMap_le f xs)
    · rw [List.filterMap_cons]
      rcases hfx : f x with _ | b


      · exact Nat.lt_succ_of_lt (ih a hmem hfa)
      · simpa using Nat.succ_lt_succ (ih a hmem hfa)

theorem build_tasks_skips_empty (pairs : List (String × String))
    (redirect : List (String × String)) (c : CollectionOracle) (r : String)
    (hres : dict_get redirect r r = "") :
    ∀ t ∈ build_tasks pairs redirect c, t.old_resource ≠ r := by
  intro t ht
  obtain ⟨p, hp, hf⟩ := List.mem_filterMap.mp ht
  by_cases hpe : dict_get redirect p.2 p.2 = ""
  · simp [build_tasks, hpe] at hf
  · simp only [build_tasks, if_neg hpe, Option.some.injEq] at hf
    intro hold
    apply hpe
    have : t.old_resource = p.2 := by rw [← hf]
    rw [← this, hold, hres]

/-- C5: redirect resolution maps a resource with no redirect entry to
itself; a resource whose redirect entry resolves to the empty identifier is
excluded from the execution set before any fetch or transform; and such a
dropped pair is still counted in the `M` of the up-front
`"Processing N transformation tasks (out of M total)"` report, which
therefore strictly exceeds the executed count `N`. -/
theorem redirect_resolution_spec :
    (∀ (entries : List OldResourceEntry) (r : String),
      (∀ e ∈ entries, e.old_resource ≠ r) →
      dict_get (build_redirect_map entries) r r = r) ∧
    (∀ (redirect pairs : List (String × String)) (c : CollectionOracle) (r : String),
      dict_get redirect r r = "" →
      ∀ t ∈ build_tasks pairs redirect c, t.old_resource ≠ r) ∧
    (∀ (m : DatasetResourceMap) (entries : List OldResourceEntry) (c : CollectionOracle)
      (dataset : Option String) (needs_processing : String → String → Bool)
      (offset limit : Option Int) (reprocess : Bool)
      (pairs2 : List (String × String)) (ds r : String),
      selected_pairs m dataset needs_processing offset limit reprocess =
        Except.ok pairs2 →
      (ds, r) ∈ pairs2 →
      dict_get (build_redirect_map entries) r r = "" →
      processing_log_counts m entries c dataset needs_processing offset limit reprocess =
        Except.ok ((build_tasks pairs2 (build_redirect_map entries) c).length,
          (build_dataset_resource_pairs m dataset).length) ∧
      (build_tasks pairs2 (build_redirect_map entries) c).length <
        (build_dataset_resource_pairs m dataset).length) := by
  refine ⟨?_, ?_, ?_⟩
  · intro entries r hne
    have hnk : r ∉ (build_redirect_map entries).map Prod.fst := by
      intro hk
      obtain ⟨e, he, heq⟩ := build_redirect_map_keys entries r hk
      exact hne e he heq
    have hlook : (build_redirect_map entries).lookup r = none :=
      (lookup_eq_none_iff _ r).mpr hnk
    simp [dict_get, hlook]
  · intro redirect pairs c r hres
    exact build_tasks_skips_empty pairs redirect c r hres
  · intro m entries c dataset needs_processing offset limit reprocess pairs2 ds r
      hsel hmem hres
    constructor
    · simp [processing_log_counts, hsel]
    · have hN : (build_tasks pairs2 (build_redirect_map entries) c).length <
          pairs2.length := by
        refine length_filterMap_lt_of_none _ pairs2 (ds, r) hmem ?_
        simp [build_tasks, hres]
      have h2 : pairs2.length ≤
          (staleness_filtered_pairs m dataset needs_processing reprocess).length :=
        apply_offset_and_limit_ok_length _ pairs2 offset limit dataset hsel
      have h3 := staleness_filtered_length_le m dataset needs_processing reprocess
      omega

/-- Witness for C5 on the end-to-end scenario of `spec.md` section 8:
index `{"ds-a": ["r3", "r1"], "ds-b": ["r1"]}` with the redirect entry
`{old: "r1", new: "", status: "410"}` drops both memberships of `r1`,
executing 1 of 3 total tasks. -/
theorem redirect_resolution_spec_witness :
    dict_get (build_redirect_map [⟨"r1", "", some "410"⟩]) "r3" "r3" = "r3" ∧
    (∀ t ∈ build_tasks [("ds-a", "r1"), ("ds-a", "r3"), ("ds-b", "r1")]
      (build_redirect_map [⟨"r1", "", some "410"⟩])
      ⟨fun r => r, fun _ => [], fun _ => [], fun _ => ""⟩, t.old_resource ≠ "r1") ∧
    processing_log_counts [("ds-a", ["r3", "r1"]), ("ds-b", ["r1"])]
        [⟨"r1", "", some "410"⟩] ⟨fun r => r, fun _ => [], fun _ => [], fun _ => ""⟩
        none (fun _ _ => true) none none true = Except.ok (1, 3) ∧
    (1 : Nat) < 3 := by
  have h1 := redirect_resolution_spec.1 [⟨"r1", "", some "410"⟩] "r3" (by decide)
  have h2 := redirect_resolution_spec.2.1
    (build_redirect_map [⟨"r1", "", some "410"⟩])
    [("ds-a", "r1"), ("ds-a", "r3"), ("ds-b", "r1")]
    ⟨fun r => r, fun _ => [], fun _ => [], fun _ => ""⟩ "r1" (by decide)
  have h3 := redirect_resolution_spec.2.2 [("ds-a", ["r3", "r1"]), ("ds-b", ["r1"])]
    [⟨"r1", "", some "410"⟩] ⟨fun r => r, fun _ => [], fun _ => [], fun _ => ""⟩
    none (fun _ _ => true) none none true
    [("ds-a", "r1"), ("ds-a", "r3"), ("ds-b", "r1")] "ds-a" "r1"
    rfl (by decide) (by decide)
  refine ⟨h1, h2, ?_, by decide⟩
  have := h3.1
  simpa using this

theorem countP_add_countP_not {α : Type} (p : α → Bool) :
    ∀ l : List α, l.countP p + l.countP (fun a => !(p a)) = l.length := by
  intro l
  induction l with
  | nil => rfl
  | cons x xs ih =>
    rw [List.countP_cons, List.countP_cons]
    rcases hx : p x with _ | _ <;> simp [hx] <;> omega

/-- C8: when the task list is empty after all upstream filtering,
`process_resources` returns the designated no-op result `None` without ever
consulting the worker function (no worker pool is started), and that result
is distinguishable from a `(0, 0, [])` summary of running zero tasks;
otherwise each task's exception is caught at the task boundary and recorded
as a `(task id, message)` failure without aborting sibling tasks, and the
returned summary satisfies `successful + failed = number of executed tasks`
with exactly one `errors` entry per failed task, carrying its id and
message. -/
theorem process_resources_runner_spec (m : DatasetResourceMap)
    (entries : List OldResourceEntry) (c : CollectionOracle) (dataset : Option String)
    (needs_processing : String → String → Bool) (offset limit : Option Int)
    (reprocess : Bool) (pairs2 : List (String × String))
    (hsel : selected_pairs m dataset needs_processing offset limit reprocess =
      Except.ok pairs2) :
    (build_tasks pairs2 (build_redirect_map entries) c = [] →
      ∀ run : TransformTask → Except String Unit,
        process_resources m entries c run dataset needs_processing offset limit
          reprocess = Except.ok none) ∧
    (∀ s : RunSummary,
      (Except.ok (some s) : Except String (Option RunSummary)) ≠ Except.ok none) ∧
    (build_tasks pairs2 (build_redirect_map entries) c ≠ [] →
      ∀ run : TransformTask → Except String Unit,
        ∃ s : RunSummary,
          process_resources m entries c run dataset needs_processing offset limit
            reprocess = Except.ok (some s) ∧
          s.successful + s.failed =
            (build_tasks pairs2 (build_redirect_map entries) c).length ∧
          s.errors.length = s.failed ∧
          s.errors = (build_tasks pairs2 (build_redirect_map entries) c).filterMap
            (fun t => match run t with
              | Except.ok _ => none
              | Except.error e => some (t.old_resource, e))) := by
  refine ⟨?_, ?_, ?_⟩
  · intro hempty run
    have hize : (build_tasks pairs2 (build_redirect_map entries) c).isEmpty = true := by
      simp [hempty]
    simp [process_resources, hsel, hize]
  · intro s h
    simp at h
  · intro hne run
    have hize : (build_tasks pairs2 (build_redirect_map entries) c).isEmpty = false := by
      simpa [List.isEmpty_iff] using hne
    refine ⟨collect_results ((build_tasks pairs2 (build_redirect_map entries) c).map
      (process_single_resource run)), ?_, ?_, ?_, ?_⟩
    · simp [process_resources, hsel, hize]
    · simp only [collect_results]
      rw [countP_add_countP_not (fun r => r.2.1)
        ((build_tasks pairs2 (build_redirect_map entries) c).map
          (process_single_resource run))]
      exact List.length_map _ _
    · simp only [collect_results, List.length_filterMap_eq_countP]
      refine List.countP_congr ?_
      intro r _
      rcases hr : r.2.1 with _ | _ <;> simp [hr]
    · simp only [collect_results, List.filterMap_map]
      have hfun : (fun r : String × Bool × Option String =>
            if r.2.1 then none else some (r.1, r.2.2.getD "")) ∘
          process_single_resource run =
          fun t => match run t with
            | Except.ok _ => none
            | Except.error e => some (t.old_resource, e) := by
        funext t
        rcases hrt : run t with _ | e <;> simp [process_single_resource, hrt]
      rw [hfun]

/-- Witness for C8: a two-task run with one pipeline failure returns the
`(1, 1, [(task, message)])` summary, and an empty selection returns the
no-op `None`. -/
theorem process_resources_runner_spec_witness :
    (∃ s : RunSummary,
      process_resources [("ds-a", ["r1", "r2"])] [] ⟨fun r => r, fun _ => [],
          fun _ => [], fun _ => ""⟩
        (fun t => if t.old_resource = "r1" then Except.error "boom" else Except.ok ())
        none (fun _ _ => true) none none true = Except.ok (some s) ∧
      s.successful + s.failed = 2 ∧
      s.errors.length = s.failed ∧
      s.errors = [("r1", "boom")]) := by
  obtain ⟨s, hs, hsum, hlen, herrs⟩ :=
    (process_resources_runner_spec [("ds-a", ["r1", "r2"])] []
      ⟨fun r => r, fun _ => [], fun _ => [], fun _ => ""⟩ none (fun _ _ => true)
      none none true [("ds-a", "r1"), ("ds-a", "r2")] rfl).2.2 (by decide)
      (fun t => if t.old_resource = "r1" then Except.error "boom" else Except.ok ())
  refine ⟨s, hs, ?_, hlen, ?_⟩
  · rw [hsum]; rfl
  · rw [herrs]; rfl

theorem chars_le_total : ∀ s t : List Char, chars_le s t = true ∨ chars_le t s = true := by
  intro s
  induction s with
  | nil => intro t; exact Or.inl rfl
  | cons a s ih =>
    intro t
    cases t with
    | nil => exact Or.inr rfl
    | cons b t =>
      by_cases hab : a = b
      · subst hab
        rcases ih t with h | h
        · exact Or.inl (by simpa [chars_le] using h)
        · exact Or.inr (by simpa [chars_le] using h)
      · rcases lt_or_gt_of_ne hab with h | h
        · exact Or.inl (by simp [chars_le, hab, h])
        · exact Or.inr (by simp [chars_le, Ne.symm hab, h])

theorem chars_le_trans : ∀ s t u : List Char,
    chars_le s t = true → chars_le t u = true → chars_le s u = true := by
  intro s
  induction s with
  | nil => intro t u _ _; rfl
  | cons a s ih =>
    intro t u h1 h2
    cases t with
    | nil => simp [chars_le] at h1
    | cons b t =>
      cases u with
      | nil => simp [chars_le] at h2
      | cons c u =>
        by_cases hab : a = b <;> by_cases hbc : b = c
        · subst hab; subst hbc
          simp only [chars_le, if_pos rfl] at h1 h2 ⊢
          exact ih t u h1 h2
        · subst hab
          simp only [chars_le, if_pos rfl] at h1
          simp only [chars_le, if_neg hbc, decide_eq_true_eq] at h2
          simp [chars_le, hbc, h2]
        · subst hbc
          simp only [chars_le, if_neg hab, decide_eq_true_eq] at h1
          simp [chars_le, hab, h1]
        · simp only [chars_le, if_neg hab, decide_eq_true_eq] at h1
          simp only [chars_le, if_neg hbc, decide_eq_true_eq] at h2
          have hac : a < c := lt_trans h1 h2
          simp [chars_le, ne_of_lt hac, hac]

theorem chars_le_antisymm : ∀ s t : List Char,
    chars_le s t = true → chars_le t s = true → s = t := by
  intro s
  induction s with
  | nil =>
    intro t _ h2
    cases t with
    | nil => rfl
    | cons b t => simp [chars_le] at h2
  | cons a s ih =>
    intro t h1 h2
    cases t with
    | nil => simp [chars_le] at h1
    | cons b t =>
      by_cases hab : a = b
      · subst hab
        simp only [chars_le, if_pos rfl] at h1 h2
        rw [ih t h1 h2]
      · simp only [chars_le, if_neg hab, decide_eq_true_eq] at h1
        simp only [chars_le, if_neg (Ne.symm hab), decide_eq_true_eq] at h2
        exact absurd h2 (lt_asymm h1)

instance : IsTotal String str_le_prop :=
  ⟨fun s t => chars_le_total s.data t.data⟩

instance : IsTrans String str_le_prop :=
  ⟨fun a b c hab hbc => chars_le_trans a.data b.data c.data hab hbc⟩

instance : IsAntisymm String str_le_prop :=
  ⟨fun a b hab hba => by
    have h := chars_le_antisymm a.data b.data hab hba
    cases a; cases b
    exact congrArg String.mk h⟩

theorem pySorted_sorted (l : List String) : List.Sorted str_le_prop (pySorted l) :=
  List.sorted_insertionSort str_le_prop l

theorem pySorted_perm (l : List String) : (pySorted l).Perm l :=
  List.perm_insertionSort str_le_prop l

theorem pySorted_eq_of_perm {l l' : List String} (h : l.Perm l') :
    pySorted l = pySorted l' :=
  List.eq_of_perm_of_sorted (((pySorted_perm l).trans h).trans (pySorted_perm l').symm)
    (pySorted_sorted l) (pySorted_sorted l')

theorem pySorted_nodup {l : List String} (h : l.Nodup) : (pySorted l).Nodup :=
  (pySorted_perm l).nodup_iff.mpr h

theorem lookup_some_mem_keys {β : Type} {m : List (String × β)} {k : String} {v : β}
    (h : m.lookup k = some v) : k ∈ m.map Prod.fst := by
  by_contra hk
  rw [(lookup_eq_none_iff m k).mpr hk] at h
  simp at h

theorem lookup_of_mem_wf {β : Type} {k : String} {v : β} :
    ∀ m : List (String × β), (m.map Prod.fst).Nodup → (k, v) ∈ m →
      m.lookup k = some v := by
  intro m
  induction m with
  | nil => intro _ h; simp at h
  | cons e es ih =>
    intro hnd hmem
    have hnd' := List.nodup_cons.mp
      (show (e.1 :: es.map Prod.fst).Nodup by rw [← List.map_cons]; exact hnd)
    rcases List.mem_cons.mp hmem with heq | hmem'
    · rw [← heq]
      simp [List.lookup]
    · have hk : k ≠ e.1 := by
        intro hke
        apply hnd'.1
        rw [← hke]
        exact List.mem_map_of_mem Prod.fst hmem'
      have hbeq : (k == e.1) = false := beq_eq_false_iff_ne.mpr hk
      simp only [List.lookup, hbeq]
      exact ih hnd'.2 hmem'

theorem flatMap_if_eq_nil {β : Type} (f : String × List String → List β) (d : String) :
    ∀ m : DatasetResourceMap, d ∉ m.map Prod.fst →
      (m.flatMap fun e => if e.1 = d then f e else []) = [] := by
  intro m
  induction m with
  | nil => intro _; rfl
  | cons e es ih =>
    intro hd
    simp only [List.map_cons, List.mem_cons] at hd
    push_neg at hd
    rw [List.flatMap_cons, if_neg (fun h => hd.1 (Eq.symm h)), List.nil_append]
    exact ih hd.2

theorem flatMap_if_eq_entry {β : Type} (f : String × List String → List β) (d : String)
    (rs : List String) :
    ∀ m : DatasetResourceMap, WFMap m → m.lookup d = some rs →
      (m.flatMap fun e => if e.1 = d then f e else []) = f (d, rs) := by
  intro m
  induction m with
  | nil => intro _ h; simp [List.lookup] at h
  | cons e es ih =>
    intro hwf hl
    have hnd := List.nodup_cons.mp
      (show (e.1 :: es.map Prod.fst).Nodup by rw [← List.map_cons]; exact hwf)
    by_cases hed : e.1 = d
    · have hbeq : (d == e.1) = true := beq_iff_eq.mpr hed.symm
      simp only [List.lookup, hbeq] at hl
      have hrs : e.2 = rs := Option.some.inj hl
      rw [List.flatMap_cons, if_pos hed,
        flatMap_if_eq_nil f d es (by rw [← hed]; exact hnd.1), List.append_nil]
      have : e = (d, rs) := by
        rcases e with ⟨e1, e2⟩
        simp only at hed hrs
        rw [hed, hrs]
      rw [this]
    · have hbeq : (d == e.1) = false := beq_eq_false_iff_ne.mpr (fun h => hed h.symm)
      simp only [List.lookup, hbeq] at hl
      rw [List.flatMap_cons, if_neg hed, List.nil_append]
      exact ih hnd.2 hl

theorem mem_build_block_fst (m : DatasetResourceMap) (ds : String) (q : String × String)
    (hq : q ∈ (match m.lookup ds with
      | none => ([] : List (String × String))
      | some rs => (pySorted rs).map (fun r => (ds, r)))) : q.1 = ds := by
  rcases h : m.lookup ds with _ | rs
  · rw [h] at hq
    simp at hq
  · rw [h] at hq
    obtain ⟨r, _, hr⟩ := List.mem_map.mp hq
    rw [← hr]

theorem sorted_flatMap_blocks (m : DatasetResourceMap) :
    ∀ dsl : List String, List.Sorted str_le_prop dsl → dsl.Nodup →
      List.Sorted pair_le (dsl.flatMap (fun ds =>
        match m.lookup ds with
        | none => []
        | some rs => (pySorted rs).map (fun r => (ds, r)))) := by
  intro dsl
  induction dsl with
  | nil => intro _ _; exact List.sorted_nil
  | cons d rest ih =>
    intro hs hnd
    rw [List.flatMap_cons]
    refine List.pairwise_append.mpr ⟨?_, ?_, ?_⟩
    · rcases hl : m.lookup d with _ | rs
      · exact List.Pairwise.nil
      · refine List.pairwise_map.mpr ?_
        exact (pySorted_sorted rs).imp (fun hab => Or.inr ⟨rfl, hab⟩)
    · exact ih (List.sorted_cons.mp hs).2 (List.nodup_cons.mp hnd).2
    · intro p hp q hq
      have hpfst : p.1 = d := mem_build_block_fst m d p hp
      obtain ⟨ds', hds', hq'⟩ := List.mem_flatMap.mp hq
      have hqfst : q.1 = ds' := mem_build_block_fst m ds' q hq'
      have hle : str_le d ds' = true := (List.sorted_cons.mp hs).1 ds' hds'
      have hne : d ≠ ds' := fun h => (List.nodup_cons.mp hnd).1 (h ▸ hds')
      exact Or.inl ⟨by rw [hpfst, hqfst]; exact hle, by rw [hpfst, hqfst]; exact hne⟩

theorem datasets_to_process_nodup (m : DatasetResourceMap) (dataset : Option String)
    (hwf : WFMap m) : (datasets_to_process m dataset).Nodup := by
  unfold datasets_to_process
  split
  · exact List.nodup_singleton _
  · exact pySorted_nodup hwf

theorem build_pairs_perm (m : DatasetResourceMap) (dataset : Option String)
    (hwf : WFMap m) (htruthy : isTruthy dataset = dataset.isSome) :
    (build_dataset_resource_pairs m dataset).Perm (membership_pairs m dataset) := by
  rcases dataset with _ | d
  · have h1 : datasets_to_process m none = pySorted (m.map Prod.fst) := by
      simp [datasets_to_process, isTruthy]
    unfold build_dataset_resource_pairs
    rw [h1]
    have hperm : (pySorted (pySorted (m.map Prod.fst))).Perm (m.map Prod.fst) :=
      (pySorted_perm _).trans (pySorted_perm _)
    refine (hperm.flatMap_right _).trans ?_
    rw [List.flatMap_map]
    simp only [membership_pairs]
    refine List.Perm.flatMap_left m ?_
    intro e he
    have hlook : m.lookup e.1 = some e.2 :=
      lookup_of_mem_wf m hwf (by rw [Prod.mk.eta]; exact he)
    rw [hlook]
    exact (pySorted_perm e.2).map _
  · have hd : d ≠ "" := by simpa [isTruthy] using htruthy
    have h1 : datasets_to_process m (some d) = [d] := by
      simp [datasets_to_process, isTruthy, hd]
    unfold build_dataset_resource_pairs
    rw [h1, show pySorted [d] = [d] from rfl, List.flatMap_singleton]
    rcases hl : m.lookup d with _ | rs
    · have hm : membership_pairs m (some d) = [] := by
        simp only [membership_pairs]
        exact flatMap_if_eq_nil _ d m ((lookup_eq_none_iff m d).mp hl)
      rw [hm]
    · have hm : membership_pairs m (some d) = rs.map (fun r => (d, r)) := by
        simp only [membership_pairs]
        exact flatMap_if_eq_entry (fun e => e.2.map (fun r => (e.1, r))) d rs m hwf hl
      rw [hm]
      exact (pySorted_perm rs).map _

theorem build_pairs_pure (m m' : DatasetResourceMap) (dataset : Option String)
    (hkeys : (m.map Prod.fst).Perm (m'.map Prod.fst))
    (hlook : ∀ k rs rs', m.lookup k = some rs → m'.lookup k = some rs' → rs.Perm rs') :
    build_dataset_resource_pairs m dataset = build_dataset_resource_pairs m' dataset := by
  have hdsl : datasets_to_process m dataset = datasets_to_process m' dataset := by
    unfold datasets_to_process
    split
    · rfl
    · exact pySorted_eq_of_perm hkeys
  have hblk : (fun ds => match m.lookup ds with
        | none => ([] : List (String × String))
        | some rs => (pySorted rs).map (fun r => (ds, r))) =
      (fun ds => match m'.lookup ds with
        | none => []
        | some rs => (pySorted rs).map (fun r => (ds, r))) := by
    funext ds
    rcases h1 : m.lookup ds with _ | rs
    · have h2 : m'.lookup ds = none := by
        refine (lookup_eq_none_iff m' ds).mpr ?_
        rw [← hkeys.mem_iff]
        exact (lookup_eq_none_iff m ds).mp h1
      rw [h2]
    · rcases h2 : m'.lookup ds with _ | rs'
      · exfalso
        have hmem : ds ∈ m.map Prod.fst := lookup_some_mem_keys h1
        rw [hkeys.mem_iff] at hmem
        exact absurd ((lookup_eq_none_iff m' ds).mp h2) (fun hc => hc hmem)
      · show List.map (fun r => (ds, r)) (pySorted rs) =
            List.map (fun r => (ds, r)) (pySorted rs')
        rw [pySorted_eq_of_perm (hlook ds rs rs' h1 h2)]
  unfold build_dataset_resource_pairs
  rw [hdsl, hblk]

/-- Counterexample to C1: Python truthiness makes the empty-string dataset
filter behave as NO filter — `build_dataset_resource_pairs` with the filter
`""` over `{"dataset-a": ["r1"]}` returns the membership pair of
`dataset-a`, not the (empty) membership list of the requested dataset. -/
theorem build_pairs_empty_filter_counterexample :
    build_dataset_resource_pairs [("dataset-a", ["r1"])] (some "") =
      [("dataset-a", "r1")] ∧
    membership_pairs [("dataset-a", ["r1"])] (some "") = [] := by
  exact ⟨rfl, rfl⟩

/-- C1 (amended): for every well-formed index and every dataset filter that
is either absent or a non-empty name (an empty-string filter is falsy in
Python and disables filtering), `build_dataset_resource_pairs` returns
exactly the admitted (dataset, resource) membership pairs — one distinct
pair per membership, duplicates across datasets preserved — ordered
primarily by dataset name and secondarily by resource identifier, both
lexicographic; and the result is a pure function of the map's contents,
unchanged under any reordering of the map's storage (of its entries and of
each per-dataset resource list). -/
theorem build_dataset_resource_pairs_canonical (m : DatasetResourceMap)
    (dataset : Option String) (hwf : WFMap m)
    (htruthy : isTruthy dataset = dataset.isSome) :
    List.Sorted pair_le (build_dataset_resource_pairs m dataset) ∧
    (build_dataset_resource_pairs m dataset).Perm (membership_pairs m dataset) ∧
    (∀ m' : DatasetResourceMap,
      (m.map Prod.fst).Perm (m'.map Prod.fst) →
      (∀ k rs rs', m.lookup k = some rs → m'.lookup k = some rs' → rs.Perm rs') →
      build_dataset_resource_pairs m dataset = build_dataset_resource_pairs m' dataset) := by
  refine ⟨?_, build_pairs_perm m dataset hwf htruthy,
    fun m' hkeys hlook => build_pairs_pure m m' dataset hkeys hlook⟩
  unfold build_dataset_resource_pairs
  exact sorted_flatMap_blocks m (pySorted (datasets_to_process m dataset))
    (pySorted_sorted _) (pySorted_nodup (datasets_to_process_nodup m dataset hwf))

/-- Witness for C1: the two-dataset index of the unit tests, with its
storage reordered and one resource list permuted, yields the identical
sorted pair list, which is a permutation of the membership pairs. -/
theorem build_dataset_resource_pairs_canonical_witness :
    build_dataset_resource_pairs
        [("dataset-b", ["resource-2", "resource-1"]), ("dataset-a", ["resource-3"])]
        none =
      build_dataset_resource_pairs
        [("dataset-a", ["resource-3"]), ("dataset-b", ["resource-1", "resource-2"])]
        none ∧
    (build_dataset_resource_pairs
        [("dataset-b", ["resource-2", "resource-1"]), ("dataset-a", ["resource-3"])]
        none).Perm (membership_pairs
        [("dataset-b", ["resource-2", "resource-1"]), ("dataset-a", ["resource-3"])]
        none) := by
  have hlook : ∀ k rs rs',
      ([("dataset-b", ["resource-2", "resource-1"]),
        ("dataset-a", ["resource-3"])] : DatasetResourceMap).lookup k = some rs →
      ([("dataset-a", ["resource-3"]),
        ("dataset-b", ["resource-1", "resource-2"])] : DatasetResourceMap).lookup k =
        some rs' → rs.Perm rs' := by
    intro k rs rs' h1 h2
    by_cases hb : k = "dataset-b"
    · subst hb
      simp only [List.lookup, show (("dataset-b" : String) == "dataset-b") = true by decide,
        show (("dataset-b" : String) == "dataset-a") = false by decide,
        Option.some.injEq] at h1 h2
      rw [← h1, ← h2]
      exact List.Perm.swap "resource-1" "resource-2" []
    · by_cases ha : k = "dataset-a"
      · subst ha
        simp only [List.lookup,
          show (("dataset-a" : String) == "dataset-b") = false by decide,
          show (("dataset-a" : String) == "dataset-a") = true by decide,
          Option.some.injEq] at h1 h2
        rw [← h1, ← h2]
      · have hb' : (k == "dataset-b") = false := beq_eq_false_iff_ne.mpr hb
        have ha' : (k == "dataset-a") = false := beq_eq_false_iff_ne.mpr ha
        simp [List.lookup, hb', ha'] at h1
  refine ⟨(build_dataset_resource_pairs_canonical
      [("dataset-b", ["resource-2", "resource-1"]), ("dataset-a", ["resource-3"])]
      none (by decide) (by decide)).2.2
      [("dataset-a", ["resource-3"]), ("dataset-b", ["resource-1", "resource-2"])]
      ?_ hlook,
    (build_dataset_resource_pairs_canonical
      [("dataset-b", ["resource-2", "resource-1"]), ("dataset-a", ["resource-3"])]
      none (by decide) (by decide)).2.1⟩
  decide

end CollectionTask
